import Mathlib

/-!
Verification of the py-polars `Series` binding layer (`src/py-polars/src/series.rs`)
against its natural-language specification.

The file shallowly embeds the binding layer: the `PySeries` wrapper and each
binding method are translated from the Rust source.  The underlying `polars`
crate (`Series`, its chunked storage and kernels) is not part of the sources;
every definition standing in for it is marked `Modelled from the spec:` and is
written from the specification's words (§3, §4.1–§4.3, §7).  Chunking is a
storage detail invisible to all logical results (spec §3), so a Series' data is
modelled as a single logical list of optional values (None = null).
-/

namespace PolarsSpec

/-- Modelled from the spec: the closed set of element kinds of the tagged
union (spec §3); the constructors mirror the `init_method!` instantiations of
the source (i32, i64, f32, f64, bool, u32, date32, date64, duration_ns,
time_ns, str). -/
inductive DType where
  | i32 | i64 | u32 | f32 | f64 | bool | date32 | date64 | durationNs | timeNs | str
deriving DecidableEq, Repr

/-- Modelled from the spec: a single element value of a Series.  Machine
integers are embedded as `Int`/`Nat` (no claim exercises overflow) and the
floating-point kinds as exact rationals (no claim exercises rounding). -/
inductive SVal where
  | vi (n : Int)
  | vu (n : Nat)
  | vf (q : Rat)
  | vb (b : Bool)
  | vs (s : String)
deriving DecidableEq, Repr

/-- Modelled from the spec: a Series is a name, a dtype tag and the logical
element sequence, each position either a value or null (spec §3).  Chunk
boundaries are invisible to logical results and are not modelled. -/
structure Series where
  name : String
  dtype : DType
  data : List (Option SVal)
deriving DecidableEq, Repr

/-- Logical length of a Series (sum of per-chunk lengths, spec §3). -/
def Series.len (s : Series) : Nat := s.data.length

/-- Does an element value match a dtype tag (spec §3 invariant: the dtype tag
and the concrete type of every element agree)? -/
def SVal.hasDType : SVal → DType → Bool
  | .vi _, .i32 | .vi _, .i64 | .vi _, .date32 | .vi _, .date64
  | .vi _, .durationNs | .vi _, .timeNs => true
  | .vu _, .u32 => true
  | .vf _, .f32 | .vf _, .f64 => true
  | .vb _, .bool => true
  | .vs _, .str => true
  | _, _ => false

/-- Spec §3 invariant: every present element matches the Series' dtype tag. -/
def Series.WF (s : Series) : Prop :=
  ∀ v ∈ s.data, ∀ x, v = some x → x.hasDType s.dtype = true

instance (s : Series) : Decidable s.WF := by
  unfold Series.WF; infer_instance

/-- Modelled from the spec: the typed error kinds of §7 (`TypeMismatch`,
`LengthMismatch`, `OutOfBounds`), the variants of the absent crate's
`PolarsError` that the binding wraps via `PyPolarsEr::Any`. -/
inductive PolarsError where
  | typeMismatch | lengthMismatch | outOfBounds
deriving DecidableEq, Repr

/-- The error type of a binding method's `PyResult`: either a crate error
wrapped through `PyPolarsEr`, or a `RuntimeError` raised directly by the
binding with a message (source `series.rs` line 103). -/
inductive PyError where
  | polars (e : PolarsError)
  | runtime (msg : String)
deriving DecidableEq, Repr

/-- The `PyResult` of the source: success or a typed failure. -/
abbrev PyResult (α : Type) := Except PyError α

/-- The boundary wrapper: `PySeries` holds exactly one `Series` and nothing
else (source lines 20–25, `#[repr(transparent)]`). -/
structure PySeries where
  series : Series
deriving DecidableEq, Repr

/-- `PySeries::new` (source lines 27–31). -/
def PySeries.new (series : Series) : PySeries := ⟨series⟩

/-- `#[derive(Clone)]` on `PySeries` (source line 22): an independent copy
that is equal on the logical contents. -/
def PySeries.clone (self : PySeries) : PySeries := self

/- ------------------------------------------------------------------ -/
/- Structural operations of the absent crate, modelled from the spec. -/
/- ------------------------------------------------------------------ -/

/-- Modelled from the spec: `Series::limit` — the first `min(n, length)`
elements, dtype and order preserved; `n` may exceed the length without error
(spec §4.1, "saturates"). -/
def Series.limit (s : Series) (numElements : Nat) : Except PolarsError Series :=
  .ok ⟨s.name, s.dtype, s.data.take numElements⟩

/-- Modelled from the spec: `Series::head` — the first `min(n, length)`
elements (spec §4.1). -/
def Series.head (s : Series) (length : Nat) : Series :=
  ⟨s.name, s.dtype, s.data.take length⟩

/-- Modelled from the spec: `Series::tail` — the last `min(n, length)`
elements, order preserved (spec §4.1). -/
def Series.tail (s : Series) (length : Nat) : Series :=
  ⟨s.name, s.dtype, s.data.drop (s.data.length - length)⟩

/-- Modelled from the spec: `Series::slice` — elements `[offset, offset+length)`;
fails with `OutOfBounds` when `offset + length` exceeds the series length or
`offset` exceeds the length (spec §4.1; over `Nat` the first disjunct subsumes
the second). -/
def Series.slice (s : Series) (offset length : Nat) : Except PolarsError Series :=
  if offset + length > s.len then .error .outOfBounds
  else .ok ⟨s.name, s.dtype, (s.data.drop offset).take length⟩

/-- Modelled from the spec: `Series::append` — concatenates `other`'s elements
after the receiver's; fails with `TypeMismatch` if the dtypes differ, and on
failure the receiver is unmodified (spec §4.1, §7).  The mutation is embedded
as returning the receiver's new value on success. -/
def Series.append (s other : Series) : Except PolarsError Series :=
  if s.dtype = other.dtype then .ok ⟨s.name, s.dtype, s.data ++ other.data⟩
  else .error .typeMismatch

/-- Modelled from the spec: `Series::filter` over a boolean mask — keeps
exactly the elements at positions where the mask is true and not null (a null
mask entry selects nothing); fails with `LengthMismatch` if the lengths differ
(spec §4.1). -/
def Series.filterByMask (s : Series) (mask : List (Option Bool)) :
    Except PolarsError Series :=
  if s.len = mask.length then
    .ok ⟨s.name, s.dtype,
      ((s.data.zip mask).filter (fun p => p.2 = some true)).map (·.1)⟩
  else .error .lengthMismatch

/-- Modelled from the spec: `Series::take` — gather, `result[i] =
source[indices[i]]`; fails with `OutOfBounds` if any index is `≥` the length
(spec §4.1). -/
def Series.take (s : Series) (indices : List Nat) : Except PolarsError Series :=
  if indices.all (· < s.len) then
    .ok ⟨s.name, s.dtype, indices.map (fun i => s.data.getD i none)⟩
  else .error .outOfBounds

/- ------------------------------------------------- -/
/- Binding methods translated from src/ (series.rs). -/
/- ------------------------------------------------- -/

/-- `PySeries::name` (source lines 61–63). -/
def PySeries.name (self : PySeries) : String := self.series.name

/-- `PySeries::dtype` (source lines 69–71): the tag of the active variant. -/
def PySeries.dtype (self : PySeries) : DType := self.series.dtype

/-- `PySeries::limit` (source lines 77–80): delegates to the crate and maps
the error through `PyPolarsEr`. -/
def PySeries.limit (self : PySeries) (numElements : Nat) : PyResult PySeries :=
  match self.series.limit numElements with
  | .ok series => .ok ⟨series⟩
  | .error e => .error (.polars e)

/-- `PySeries::slice` (source lines 82–88). -/
def PySeries.slice (self : PySeries) (offset length : Nat) : PyResult PySeries :=
  match self.series.slice offset length with
  | .ok series => .ok ⟨series⟩
  | .error e => .error (.polars e)

/-- `PySeries::append` (source lines 90–95): mutates the receiver.  Embedded
as a state transformer returning the `PyResult<()>` together with the
receiver's value after the call (unchanged when the crate call fails). -/
def PySeries.append (self other : PySeries) : PyResult Unit × PySeries :=
  match self.series.append other.series with
  | .ok series => (.ok (), ⟨series⟩)
  | .error e => (.error (.polars e), self)

/-- Boolean payload of a mask element: the boolean it holds, if any. -/
def boolView (v : Option SVal) : Option Bool :=
  v.bind fun x => match x with | .vb b => some b | _ => none

/-- `PySeries::filter` (source lines 97–105): if the mask series is tagged
boolean (`if let Series::Bool(ca)`) the crate filter runs on its boolean data,
otherwise the binding itself raises `RuntimeError("Expected a boolean mask")`. -/
def PySeries.filter (self mask : PySeries) : PyResult PySeries :=
  if mask.series.dtype = .bool then
    match self.series.filterByMask (mask.series.data.map boolView) with
    | .ok series => .ok ⟨series⟩
    | .error e => .error (.polars e)
  else .error (.runtime "Expected a boolean mask")

/-- `PySeries::head` (source lines 123–125).  The host-language `Option` on
the length argument only supplies a default; the claims quantify over an
explicit `n`. -/
def PySeries.head (self : PySeries) (length : Nat) : PyResult PySeries :=
  .ok (PySeries.new (self.series.head length))

/-- `PySeries::tail` (source lines 127–129). -/
def PySeries.tail (self : PySeries) (length : Nat) : PyResult PySeries :=
  .ok (PySeries.new (self.series.tail length))

/-- `PySeries::take` (source lines 143–146). -/
def PySeries.take (self : PySeries) (indices : List Nat) : PyResult PySeries :=
  match self.series.take indices with
  | .ok series => .ok (PySeries.new series)
  | .error e => .error (.polars e)

/- ----------------------------------------- -/
/- Sorting: sort / argsort (spec §4.1, §8).  -/
/- ----------------------------------------- -/

/-- Constructor index of an element value, used to make the sort key total
across the (in practice homogeneous, by the §3 invariant) value universe. -/
def SVal.ctorIdx : SVal → Nat
  | .vi _ => 0 | .vu _ => 1 | .vf _ => 2 | .vb _ => 3 | .vs _ => 4

/-- Ascending order on element values: within one kind the kind's natural
order (false < true for booleans, lexicographic for strings); across kinds the
constructor index (never exercised on a well-formed Series). -/
def SVal.le (x y : SVal) : Bool :=
  x.ctorIdx < y.ctorIdx ||
    (x.ctorIdx = y.ctorIdx &&
      match x, y with
      | .vi a, .vi b => a ≤ b
      | .vu a, .vu b => a ≤ b
      | .vf a, .vf b => a ≤ b
      | .vb a, .vb b => !a || b
      | .vs a, .vs b => a ≤ b
      | _, _ => true)

/-- The sort key order on positions: nulls sort last (spec §8, the documented
null-placement policy), values ascend by `SVal.le`. -/
def optLe : Option SVal → Option SVal → Bool
  | none, none => true
  | none, some _ => false
  | some _, none => true
  | some x, some y => x.le y

/-- Modelled from the spec: `Series::sort` — mutates the receiver into
ascending order by value, nulls last (spec §4.1, §8); embedded as returning
the receiver's new value, using a stable merge sort. -/
def Series.sort (s : Series) : Series :=
  ⟨s.name, s.dtype, s.data.mergeSort optLe⟩

/-- Modelled from the spec: `Series::argsort` — the index list that would
reorder the series into the same ascending order `sort` produces, without
mutating the receiver (spec §4.1); the same stable merge sort applied to the
positions, comparing by the elements they hold. -/
def Series.argsort (s : Series) : List Nat :=
  (List.range s.len).mergeSort (fun i j => optLe (s.data.getD i none) (s.data.getD j none))

/-- Modelled from the spec: `Series::series_equal` — true iff both series have
equal dtype, equal length and elementwise equal values including matching null
positions; the name is not part of data identity (spec §3, §4.1). -/
def Series.seriesEqual (s other : Series) : Bool :=
  s.dtype = other.dtype && s.data = other.data

/-- `PySeries::sort` (source lines 131–133): in-place, embedded as returning
the receiver's new value. -/
def PySeries.sort (self : PySeries) : PySeries :=
  ⟨self.series.sort⟩

/-- `PySeries::argsort` (source lines 135–137): reads `&self`, so the receiver
is unchanged; returns the index list. -/
def PySeries.argsort (self : PySeries) : PyResult (List Nat) :=
  .ok self.series.argsort

/-- `PySeries::series_equal` (source lines 156–158). -/
def PySeries.seriesEqual (self other : PySeries) : PyResult Bool :=
  .ok (self.series.seriesEqual other.series)

/- --------------------------------------------------- -/
/- Series-with-series arithmetic (spec §4.2, §7).      -/
/- --------------------------------------------------- -/

/-- Modelled from the spec: the elementwise kernels of the absent crate on two
present values of one kind.  Integer division truncates as in the host
language; a division by zero and a kind mismatch produce no value (neither
case is exercised by any claim, whose operands are same-dtype and the
null-propagation conjunct is independent of the kernel). -/
def SVal.arith (fi : Int → Int → Option Int)
    (fu : Nat → Nat → Option Nat) (ff : Rat → Rat → Option Rat) :
    SVal → SVal → Option SVal :=
  fun x y =>
    match x, y with
    | .vi a, .vi b => (fi a b).map .vi
    | .vu a, .vu b => (fu a b).map .vu
    | .vf a, .vf b => (ff a b).map .vf
    | _, _ => none

/-- Elementwise combination with null propagation: a null operand at position
i yields a null at position i (spec §4.2). -/
def zipNull (f : SVal → SVal → Option SVal) :
    List (Option SVal) → List (Option SVal) → List (Option SVal) :=
  fun a b => (a.zip b).map (fun p => p.1.bind fun x => p.2.bind fun y => f x y)

/-- Modelled from the spec: the `+`/`-`/`*`/`/` operators of the absent crate
on two Series.  The spec (§4.2) requires equal lengths; the operator returns a
bare `Series` (the binding applies `PySeries::new` to it directly), so it has
no error channel, and the unequal-length case can only panic inside the crate
— embedded as `none`.  Equal-length operands give the elementwise result with
null propagation. -/
def Series.binOp (f : SVal → SVal → Option SVal) (s other : Series) : Option Series :=
  if s.len = other.len then
    some ⟨s.name, s.dtype, zipNull f s.data other.data⟩
  else none

/-- Integer addition kernel and friends, truncating division. -/
def svalAdd : SVal → SVal → Option SVal :=
  SVal.arith (fun a b => some (a + b)) (fun a b => some (a + b)) (fun a b => some (a + b))

def svalSub : SVal → SVal → Option SVal :=
  SVal.arith (fun a b => some (a - b)) (fun a b => some (a - b)) (fun a b => some (a - b))

def svalMul : SVal → SVal → Option SVal :=
  SVal.arith (fun a b => some (a * b)) (fun a b => some (a * b)) (fun a b => some (a * b))

def svalDiv : SVal → SVal → Option SVal :=
  SVal.arith (fun a b => if b = 0 then none else some (a.tdiv b))
    (fun a b => if b = 0 then none else some (a / b))
    (fun a b => if b = 0 then none else some (a / b))

/-- `PySeries::add` (source lines 107–109): `Ok(PySeries::new(&self.series +
&other.series))` — the `Ok` is unconditional; a crate panic propagates as
`none`, never as a typed error. -/
def PySeries.add (self other : PySeries) : Option (PyResult PySeries) :=
  (Series.binOp svalAdd self.series other.series).map (fun s => .ok (PySeries.new s))

/-- `PySeries::sub` (source lines 111–113). -/
def PySeries.sub (self other : PySeries) : Option (PyResult PySeries) :=
  (Series.binOp svalSub self.series other.series).map (fun s => .ok (PySeries.new s))

/-- `PySeries::mul` (source lines 115–117). -/
def PySeries.mul (self other : PySeries) : Option (PyResult PySeries) :=
  (Series.binOp svalMul self.series other.series).map (fun s => .ok (PySeries.new s))

/-- `PySeries::div` (source lines 119–121). -/
def PySeries.div (self other : PySeries) : Option (PyResult PySeries) :=
  (Series.binOp svalDiv self.series other.series).map (fun s => .ok (PySeries.new s))

/- ------------------------------- -/
/- Aggregation: mean (spec §4.3).  -/
/- ------------------------------- -/

/-- Numeric view of a present element value, as an exact rational. -/
def SVal.asRat : SVal → Option Rat
  | .vi n => some (n : Rat)
  | .vu n => some (n : Rat)
  | .vf q => some q
  | _ => none

/-- The non-null numeric values of a Series, in order. -/
def Series.numericVals (s : Series) : List Rat :=
  s.data.filterMap (fun v => v.bind SVal.asRat)

/-- Modelled from the spec: the floating-point mean of the absent crate —
null-aware (null positions excluded), absent when the series is empty or
contains only nulls (spec §4.3). -/
def Series.meanVal (s : Series) : Option Rat :=
  if s.numericVals.length = 0 then none
  else some (s.numericVals.sum / (s.numericVals.length : Rat))

/-- Truncation toward zero of a rational into an unsigned machine integer,
the host library's numeric cast for float-to-unsigned (negative values never
arise from an unsigned source). -/
def ratToU (q : Rat) : Nat := q.floor.toNat

/-- Truncation toward zero of a rational into a signed machine integer. -/
def ratToI (q : Rat) : Int := if 0 ≤ q then q.floor else q.ceil

/-- `PySeries::mean_u32` (source `impl_mean!(mean_u32, u32)`, lines 287–302):
`pub fn mean_u32(&self) -> PyResult<Option<u32>>` returning
`self.series.mean()` — the crate's generic mean instantiated at the source
type `u32`, i.e. the floating-point mean numerically cast to `u32`. -/
def PySeries.mean_u32 (self : PySeries) : PyResult (Option Nat) :=
  .ok (self.series.meanVal.map ratToU)

/-- `PySeries::mean_i32` (source `impl_mean!(mean_i32, i32)`). -/
def PySeries.mean_i32 (self : PySeries) : PyResult (Option Int) :=
  .ok (self.series.meanVal.map ratToI)

/-- `PySeries::mean_i64` (source `impl_mean!(mean_i64, i64)`). -/
def PySeries.mean_i64 (self : PySeries) : PyResult (Option Int) :=
  .ok (self.series.meanVal.map ratToI)

/-- `PySeries::mean_f32` (source `impl_mean!(mean_f32, f32)`). -/
def PySeries.mean_f32 (self : PySeries) : PyResult (Option Rat) :=
  .ok self.series.meanVal

/-- `PySeries::mean_f64` (source `impl_mean!(mean_f64, f64)`). -/
def PySeries.mean_f64 (self : PySeries) : PyResult (Option Rat) :=
  .ok self.series.meanVal

/- ------------------------------------------------------ -/
/- Bulk reinterpretation bridge and is_null (source).     -/
/- ------------------------------------------------------ -/

/-- `to_series_collection` (source lines 406–417): reinterprets a collection
of `#[repr(transparent)]` wrappers as a collection of bare `Series` in place;
on the logical contents this is the elementwise unwrap. -/
def to_series_collection (ps : List PySeries) : List Series :=
  ps.map (·.series)

/-- `to_pyseries_collection` (source lines 419–427): the inverse
reinterpretation; on the logical contents, the elementwise rewrap. -/
def to_pyseries_collection (s : List Series) : List PySeries :=
  s.map PySeries.new

/-- One round trip of the bulk reinterpretation bridge. -/
def roundTrip (ps : List PySeries) : List PySeries :=
  to_pyseries_collection (to_series_collection ps)

/-- `PySeries::is_null` (source lines 152–154): the body is `todo!()`, which
unconditionally panics; embedded as a computation with no returned value. -/
def PySeries.is_null (self : PySeries) : Option PySeries :=
  (fun _ => none) self

/- ------------------ -/
/- Helper lemmas.     -/
/- ------------------ -/

theorem roundTrip_eq (ps : List PySeries) : roundTrip ps = ps := by
  induction ps with
  | nil => rfl
  | cons p t ih =>
      simpa [roundTrip, to_series_collection, to_pyseries_collection, PySeries.new] using ih

/- ------------------ -/
/- Claim theorems.    -/
/- ------------------ -/

/-- C10: for every Series, the public `is_null` operation never returns a
result — its body is `todo!()`, an unconditional panic — so no caller can
observe a null-indicator mask through this interface. -/
theorem c10_is_null_never_returns (s : PySeries) : s.is_null = none := rfl

/-- C9: converting a collection of wrapped series to bare Series
(`to_series_collection`) and back (`to_pyseries_collection`), any number of
times, is the identity on the collection's logical contents — every series'
name, dtype and element sequence is preserved unchanged. -/
theorem c9_bulk_reinterpretation_roundtrip (ps : List PySeries) (n : Nat) :
    roundTrip^[n] ps = ps := by
  induction n with
  | zero => rfl
  | succ k ih => rw [Function.iterate_succ_apply, roundTrip_eq, ih]

/-- C5: for every Series and every `n`, `limit(n)`, `head(n)` and `tail(n)`
succeed without error even when `n` exceeds the length, returning the first
(limit/head) or last (tail) `min(n, length)` elements with dtype, name and
relative order preserved. -/
theorem c5_limit_head_tail (s : PySeries) (n : Nat) :
    (∃ r, s.limit n = .ok r ∧ r.series.name = s.series.name ∧
      r.series.dtype = s.series.dtype ∧ r.series.data = s.series.data.take n ∧
      r.series.len = min n s.series.len) ∧
    (∃ r, s.head n = .ok r ∧ r.series.name = s.series.name ∧
      r.series.dtype = s.series.dtype ∧ r.series.data = s.series.data.take n ∧
      r.series.len = min n s.series.len) ∧
    (∃ r, s.tail n = .ok r ∧ r.series.name = s.series.name ∧
      r.series.dtype = s.series.dtype ∧
      r.series.data = s.series.data.drop (s.series.len - n) ∧
      r.series.len = min n s.series.len) := by
  refine ⟨⟨⟨⟨s.series.name, s.series.dtype, s.series.data.take n⟩⟩, rfl, rfl, rfl, rfl, ?_⟩,
    ⟨⟨⟨s.series.name, s.series.dtype, s.series.data.take n⟩⟩, rfl, rfl, rfl, rfl, ?_⟩,
    ⟨⟨⟨s.series.name, s.series.dtype, s.series.data.drop (s.series.len - n)⟩⟩,
      rfl, rfl, rfl, rfl, ?_⟩⟩
  · simp [Series.len]
  · simp [Series.len]
  · simp only [Series.len, List.length_drop]
    omega

/-- C4: for every Series of length `m`, `slice(offset, length)` fails with
`OutOfBounds` when `offset + length` exceeds `m` or `offset` exceeds `m`, and
otherwise succeeds with exactly the elements at positions
`[offset, offset+length)` and result length exactly `length`. -/
theorem c4_slice (s : PySeries) (offset length : Nat) :
    (offset + length > s.series.len ∨ offset > s.series.len →
      s.slice offset length = .error (.polars .outOfBounds)) ∧
    (offset + length ≤ s.series.len →
      ∃ r, s.slice offset length = .ok r ∧ r.series.name = s.series.name ∧
        r.series.dtype = s.series.dtype ∧
        r.series.data = (s.series.data.drop offset).take length ∧
        r.series.len = length ∧
        ∀ i < length, r.series.data.getD i none = s.series.data.getD (offset + i) none) := by
  constructor
  · intro h
    have hgt : offset + length > s.series.len := by omega
    simp [PySeries.slice, Series.slice, hgt]
  · intro h
    have hgt : ¬ offset + length > s.series.len := by omega
    refine ⟨⟨⟨s.series.name, s.series.dtype, (s.series.data.drop offset).take length⟩⟩,
      ?_, rfl, rfl, rfl, ?_, ?_⟩
    · simp [PySeries.slice, Series.slice, hgt]
    · simp only [Series.len, List.length_take, List.length_drop]
      simp only [Series.len] at h
      omega
    · intro i hi
      have h1 : i < ((s.series.data.drop offset).take length).length := by
        simp only [List.length_take, List.length_drop]
        simp only [Series.len] at h
        omega
      have h2 : offset + i < s.series.data.length := by
        simp only [Series.len] at h
        omega
      rw [List.getD_eq_getElem _ _ h1, List.getD_eq_getElem _ _ h2]
      rw [List.getElem_take, List.getElem_drop]

theorem boolView_eq_true_iff (v : Option SVal) :
    (boolView v = some true) ↔ (v = some (SVal.vb true)) := by
  cases v with
  | none => simp [boolView]
  | some x => cases x <;> simp [boolView]

theorem filter_boolView (a m : List (Option SVal)) :
    ((a.zip (m.map boolView)).filter (fun p => p.2 = some true)).map (·.1)
    = ((a.zip m).filter (fun p => p.2 = some (SVal.vb true))).map (·.1) := by
  rw [List.zip_map_right, List.filter_map, List.map_map]
  have hpred : ∀ q ∈ a.zip m,
      ((fun p : Option SVal × Option Bool => decide (p.2 = some true)) ∘ Prod.map id boolView) q
      = decide (q.2 = some (SVal.vb true)) := by
    rintro ⟨x, v⟩ -
    simp [Function.comp, boolView_eq_true_iff]
  rw [List.filter_congr hpred]
  exact List.map_congr_left fun q _ => rfl

/-- C2: `filter(mask)` fails with the binding's typed boolean-mask failure
when the mask is not boolean-tagged, fails with `LengthMismatch` when it is
boolean-tagged but of different length, and otherwise returns a new Series
with exactly the elements of `s` at positions where the mask is true and not
null (a null or absent mask entry selects nothing); the receiver is read
through a shared reference and is not mutated. -/
theorem c2_filter (s mask : PySeries) :
    (mask.series.dtype ≠ .bool →
      s.filter mask = .error (.runtime "Expected a boolean mask")) ∧
    (mask.series.dtype = .bool → s.series.len ≠ mask.series.len →
      s.filter mask = .error (.polars .lengthMismatch)) ∧
    (mask.series.dtype = .bool → s.series.len = mask.series.len →
      ∃ r, s.filter mask = .ok r ∧ r.series.name = s.series.name ∧
        r.series.dtype = s.series.dtype ∧
        r.series.data = ((s.series.data.zip mask.series.data).filter
          (fun p => p.2 = some (SVal.vb true))).map (·.1)) := by
  refine ⟨fun hb => ?_, fun hb hlen => ?_, fun hb hlen => ?_⟩
  · simp [PySeries.filter, hb]
  · have hlen' : ¬ s.series.len = mask.series.data.length := by
      simpa [Series.len] using hlen
    simp [PySeries.filter, hb, Series.filterByMask, hlen']
  · have hlen' : s.series.len = mask.series.data.length := by
      simpa [Series.len] using hlen
    refine ⟨⟨⟨s.series.name, s.series.dtype,
      ((s.series.data.zip (mask.series.data.map boolView)).filter
        (fun p => p.2 = some true)).map (·.1)⟩⟩, ?_, rfl, rfl, ?_⟩
    · simp [PySeries.filter, hb, Series.filterByMask, hlen']
    · exact filter_boolView s.series.data mask.series.data

/-- C6: `take(indices)` fails with `OutOfBounds` if any index is at least the
length, and otherwise returns a new Series of the same dtype whose element at
position `i` equals the source element at position `indices[i]`. -/
theorem c6_take (s : PySeries) (indices : List Nat) :
    ((∃ i ∈ indices, s.series.len ≤ i) →
      s.take indices = .error (.polars .outOfBounds)) ∧
    ((∀ i ∈ indices, i < s.series.len) →
      ∃ r, s.take indices = .ok r ∧ r.series.name = s.series.name ∧
        r.series.dtype = s.series.dtype ∧
        r.series.data = indices.map (fun i => s.series.data.getD i none) ∧
        r.series.len = indices.length) := by
  constructor
  · rintro ⟨i, hmem, hge⟩
    have hall : ¬ indices.all (· < s.series.len) = true := by
      simp only [List.all_eq_true, decide_eq_true_eq]
      intro h
      exact absurd (h i hmem) (by omega)
    simp [PySeries.take, Series.take, hall]
  · intro h
    have hall : indices.all (· < s.series.len) = true := by
      simp only [List.all_eq_true, decide_eq_true_eq]
      exact h
    refine ⟨⟨⟨s.series.name, s.series.dtype,
      indices.map (fun i => s.series.data.getD i none)⟩⟩, ?_, rfl, rfl, rfl, ?_⟩
    · simp [PySeries.take, Series.take, PySeries.new, hall]
    · simp [Series.len]

/-- Concrete series of the specification's `take` scenario. -/
def exStr : PySeries := ⟨⟨"abc", .str, [some (.vs "a"), some (.vs "b"), some (.vs "c")]⟩⟩

/-- Witness for C6, the concrete scenario of the spec: `take([3])` on
`["a","b","c"]` fails with `OutOfBounds` and `take([2,0])` yields `["c","a"]`. -/
theorem c6_take_witness :
    exStr.take [3] = .error (.polars .outOfBounds) ∧
    exStr.take [2, 0] = .ok ⟨⟨"abc", .str, [some (.vs "c"), some (.vs "a")]⟩⟩ := by
  obtain ⟨r, hr, hn, hd, hdata, -⟩ := (c6_take exStr [2, 0]).2 (by decide)
  obtain ⟨⟨a, b, c⟩⟩ := r
  have ha : a = "abc" := hn
  have hb : b = DType.str := hd
  have hc : c = [some (.vs "c"), some (.vs "a")] := hdata
  subst ha; subst hb; subst hc
  exact ⟨(c6_take exStr [3]).1 ⟨3, by decide, by decide⟩, hr⟩

/-- C7: `append(other)` fails with `TypeMismatch` when the dtypes differ and
then leaves the receiver completely unmodified; on matching dtypes it succeeds
and the receiver's element sequence becomes its prior elements followed by
the elements of `other`. -/
theorem c7_append (s other : PySeries) :
    (s.series.dtype ≠ other.series.dtype →
      (s.append other).1 = .error (.polars .typeMismatch) ∧ (s.append other).2 = s) ∧
    (s.series.dtype = other.series.dtype →
      (s.append other).1 = .ok () ∧
      (s.append other).2.series.data = s.series.data ++ other.series.data ∧
      (s.append other).2.series.name = s.series.name ∧
      (s.append other).2.series.dtype = s.series.dtype) := by
  constructor
  · intro hd
    simp [PySeries.append, Series.append, hd]
  · intro hd
    simp [PySeries.append, Series.append, hd]

/-- Concrete i32 series for witnesses. -/
def exI32 : PySeries := ⟨⟨"s", .i32, [some (.vi 1), some (.vi 2), none, some (.vi 4)]⟩⟩

/-- A boolean mask of length 4 with a null entry. -/
def exMask : PySeries := ⟨⟨"m", .bool, [some (.vb true), some (.vb false), none, some (.vb true)]⟩⟩

/-- A short boolean mask and a non-boolean mask. -/
def exMaskShort : PySeries := ⟨⟨"m", .bool, [some (.vb true)]⟩⟩

/-- Witness for C4 at concrete inputs: an out-of-range slice fails, a valid
slice returns exactly the requested window. -/
theorem c4_slice_witness :
    exI32.slice 5 1 = .error (.polars .outOfBounds) ∧
    exI32.slice 1 2 = .ok ⟨⟨"s", .i32, [some (.vi 2), none]⟩⟩ := by
  obtain ⟨r, hr, hn, hd, hdata, -, -⟩ := (c4_slice exI32 1 2).2 (by decide)
  obtain ⟨⟨a, b, c⟩⟩ := r
  have ha : a = "s" := hn
  have hb : b = DType.i32 := hd
  have hc : c = [some (.vi 2), none] := hdata
  subst ha; subst hb; subst hc
  exact ⟨(c4_slice exI32 5 1).1 (Or.inl (by decide)), hr⟩

/-- Witness for C2 at concrete inputs: a non-boolean mask is rejected, a
boolean mask of the wrong length fails with `LengthMismatch`, and a valid mask
keeps exactly the true, non-null positions. -/
theorem c2_filter_witness :
    exI32.filter exStr = .error (.runtime "Expected a boolean mask") ∧
    exI32.filter exMaskShort = .error (.polars .lengthMismatch) ∧
    exI32.filter exMask = .ok ⟨⟨"s", .i32, [some (.vi 1), some (.vi 4)]⟩⟩ := by
  obtain ⟨r, hr, hn, hd, hdata⟩ := (c2_filter exI32 exMask).2.2 (by decide) (by decide)
  obtain ⟨⟨a, b, c⟩⟩ := r
  have ha : a = "s" := hn
  have hb : b = DType.i32 := hd
  have hc : c = [some (.vi 1), some (.vi 4)] := hdata
  subst ha; subst hb; subst hc
  exact ⟨(c2_filter exI32 exStr).1 (by decide),
    (c2_filter exI32 exMaskShort).2.1 (by decide) (by decide), hr⟩

/-- Witness for C7 at concrete inputs: appending a string series to an i32
series fails with `TypeMismatch` and leaves the receiver unchanged; appending
an i32 series concatenates. -/
theorem c7_append_witness :
    (exI32.append exStr).1 = .error (.polars .typeMismatch) ∧
    (exI32.append exStr).2 = exI32 ∧
    (exI32.append exI32).1 = .ok () ∧
    (exI32.append exI32).2.series.data
      = exI32.series.data ++ exI32.series.data := by
  obtain ⟨h1, h2⟩ := (c7_append exI32 exStr).1 (by decide)
  obtain ⟨h3, h4, -, -⟩ := (c7_append exI32 exI32).2 (by decide)
  exact ⟨h1, h2, h3, h4⟩

theorem svalLe_total (x y : SVal) : x.le y = true ∨ y.le x = true := by
  cases x <;> cases y <;> simp [SVal.le, SVal.ctorIdx] <;>
    first
      | omega
      | exact le_total _ _
      | (rename_i a b; cases a <;> cases b <;> simp)

theorem svalLe_trans {x y z : SVal} (hxy : x.le y = true) (hyz : y.le z = true) :
    x.le z = true := by
  cases x <;> cases y <;> cases z <;> simp_all [SVal.le, SVal.ctorIdx] <;>
    first
      | omega
      | exact le_trans hxy hyz
      | (rename_i a b c; cases a <;> cases b <;> cases c <;> simp_all)

theorem optLe_total (a b : Option SVal) : optLe a b || optLe b a := by
  cases a with
  | none => cases b <;> simp [optLe]
  | some x =>
      cases b with
      | none => simp [optLe]
      | some y =>
          simp only [optLe, Bool.or_eq_true]
          exact svalLe_total x y

theorem optLe_trans (a b c : Option SVal) (hab : optLe a b) (hbc : optLe b c) :
    optLe a c := by
  cases a <;> cases b <;> cases c <;> simp_all [optLe]
  exact svalLe_trans hab hbc

theorem range_map_getD (l : List (Option SVal)) :
    (List.range l.length).map (fun i => l.getD i none) = l := by
  apply List.ext_getElem
  · simp
  · intro i h1 h2
    simp only [List.getElem_map, List.getElem_range]
    rw [List.getD_eq_getElem _ _ h2]

theorem argsort_map_getD (s : Series) :
    s.argsort.map (fun i => s.data.getD i none) = s.data.mergeSort optLe := by
  unfold Series.argsort
  rw [List.map_mergeSort (s := optLe) (fun a _ b _ => rfl)]
  rw [show (List.range s.len) = List.range s.data.length from rfl, range_map_getD]

theorem argsort_mem_lt (s : Series) : ∀ i ∈ s.argsort, i < s.len := by
  intro i hi
  have : i ∈ List.range s.len := List.mem_mergeSort.mp hi
  simpa using this

/-- C8: `argsort()` reads the receiver through a shared reference (no
mutation) and returns an index list such that `take` applied to that list
yields a series that is `series_equal` to the result of `sort()` on a clone of
the same series; the sorted data is ascending with nulls placed last
(`optLe`). -/
theorem c8_take_argsort_is_sort (s : PySeries) :
    ∃ idx, s.argsort = .ok idx ∧ (∀ i ∈ idx, i < s.series.len) ∧
      ∃ r, s.take idx = .ok r ∧
        r.seriesEqual s.clone.sort = .ok true ∧
        (s.clone.sort).series.data.Pairwise (fun a b => optLe a b = true) := by
  refine ⟨s.series.argsort, rfl, argsort_mem_lt s.series, ?_⟩
  have hall : (s.series.argsort).all (· < s.series.len) = true := by
    simp only [List.all_eq_true, decide_eq_true_eq]
    exact argsort_mem_lt s.series
  refine ⟨⟨⟨s.series.name, s.series.dtype,
    (s.series.argsort).map (fun i => s.series.data.getD i none)⟩⟩, ?_, ?_, ?_⟩
  · simp [PySeries.take, Series.take, PySeries.new, hall]
  · have hdata := argsort_map_getD s.series
    simp [PySeries.seriesEqual, Series.seriesEqual, PySeries.clone, PySeries.sort,
      Series.sort]
    simpa [List.getD_eq_getElem?_getD] using hdata
  · have := @List.sorted_mergeSort (Option SVal) optLe
      (fun a b c hab hbc => optLe_trans a b c hab hbc)
      (fun a b => optLe_total a b) s.series.data
    simpa [PySeries.clone, PySeries.sort, Series.sort] using this

/-- Two i32 series of differing lengths. -/
def exLen1 : PySeries := ⟨⟨"a", .i32, [some (.vi 1)]⟩⟩

/-- A two-element i32 series. -/
def exLen2 : PySeries := ⟨⟨"b", .i32, [some (.vi 1), some (.vi 2)]⟩⟩

/-- C3 counterexample: on operands of lengths 1 and 2, `add`, `sub`, `mul`
and `div` do not report a typed failure result to the caller — the binding
wraps the bare operator result in `Ok` unconditionally, so a length mismatch
can only panic inside the crate (no `PyResult` value at all, here `none`),
never a `LengthMismatch` error value. -/
theorem c3_counterexample :
    exLen1.add exLen2 = none ∧ exLen1.sub exLen2 = none ∧
    exLen1.mul exLen2 = none ∧ exLen1.div exLen2 = none ∧
    exLen1.add exLen2 ≠ some (.error (.polars .lengthMismatch)) := by
  refine ⟨rfl, rfl, rfl, rfl, fun h => ?_⟩
  rw [show exLen1.add exLen2 = none from rfl] at h
  exact Option.noConfusion h

/-- C3 amended: for equal-length operands each binary arithmetic operation
returns `Ok` with the elementwise result, in which a null operand at position
`i` yields a null result at position `i`; for differing lengths the operation
panics inside the crate (the binding returns no value at all) and in
particular never reports a typed `LengthMismatch` failure result. -/
theorem c3_arith_amended (a b : PySeries) :
    (a.series.len ≠ b.series.len →
      a.add b = none ∧ a.sub b = none ∧ a.mul b = none ∧ a.div b = none) ∧
    (a.series.len = b.series.len →
      (∃ r, a.add b = some (.ok r) ∧ r.series.name = a.series.name ∧
        r.series.dtype = a.series.dtype ∧
        r.series.data = zipNull svalAdd a.series.data b.series.data) ∧
      (∃ r, a.sub b = some (.ok r) ∧ r.series.name = a.series.name ∧
        r.series.dtype = a.series.dtype ∧
        r.series.data = zipNull svalSub a.series.data b.series.data) ∧
      (∃ r, a.mul b = some (.ok r) ∧ r.series.name = a.series.name ∧
        r.series.dtype = a.series.dtype ∧
        r.series.data = zipNull svalMul a.series.data b.series.data) ∧
      (∃ r, a.div b = some (.ok r) ∧ r.series.name = a.series.name ∧
        r.series.dtype = a.series.dtype ∧
        r.series.data = zipNull svalDiv a.series.data b.series.data)) ∧
    (∀ f i, i < a.series.len → i < b.series.len →
      (a.series.data.getD i none = none ∨ b.series.data.getD i none = none) →
      (zipNull f a.series.data b.series.data).getD i none = none) := by
  refine ⟨fun hne => ?_, fun heq => ?_, fun f i hia hib hnull => ?_⟩
  · simp [PySeries.add, PySeries.sub, PySeries.mul, PySeries.div, Series.binOp, hne]
  · refine ⟨⟨⟨⟨a.series.name, a.series.dtype, zipNull svalAdd a.series.data b.series.data⟩⟩,
      ?_, rfl, rfl, rfl⟩,
      ⟨⟨⟨a.series.name, a.series.dtype, zipNull svalSub a.series.data b.series.data⟩⟩,
      ?_, rfl, rfl, rfl⟩,
      ⟨⟨⟨a.series.name, a.series.dtype, zipNull svalMul a.series.data b.series.data⟩⟩,
      ?_, rfl, rfl, rfl⟩,
      ⟨⟨⟨a.series.name, a.series.dtype, zipNull svalDiv a.series.data b.series.data⟩⟩,
      ?_, rfl, rfl, rfl⟩⟩ <;>
    simp [PySeries.add, PySeries.sub, PySeries.mul, PySeries.div, Series.binOp,
      PySeries.new, heq]
  · simp only [Series.len] at hia hib
    have hz : i < ((a.series.data.zip b.series.data).map
        (fun p => p.1.bind fun x => p.2.bind fun y => f x y)).length := by
      simp only [List.length_map, List.length_zip]
      omega
    rw [zipNull, List.getD_eq_getElem _ _ hz]
    simp only [List.getElem_map, List.getElem_zip]
    rcases hnull with h | h
    · rw [List.getD_eq_getElem _ _ hia] at h
      simp [h]
    · rw [List.getD_eq_getElem _ _ hib] at h
      simp [h]

/-- Witness for the amended C3 at concrete inputs: equal-length addition
yields the elementwise `Ok` result, a null position propagates to a null
result, and unequal lengths yield no result value. -/
theorem c3_arith_amended_witness :
    exLen2.add exLen2 = some (.ok ⟨⟨"b", .i32, [some (.vi 2), some (.vi 4)]⟩⟩) ∧
    (zipNull svalAdd exI32.series.data exI32.series.data).getD 2 none = none ∧
    exLen1.add exLen2 = none := by
  obtain ⟨⟨r, hr, hn, hd, hdata⟩, -, -, -⟩ := (c3_arith_amended exLen2 exLen2).2.1 rfl
  obtain ⟨⟨x, y, z⟩⟩ := r
  have hx : x = "b" := hn
  have hy : y = DType.i32 := hd
  have hz : z = [some (.vi 2), some (.vi 4)] := hdata
  subst hx; subst hy; subst hz
  refine ⟨hr, ?_, ((c3_arith_amended exLen1 exLen2).1 (by decide)).1⟩
  exact (c3_arith_amended exI32 exI32).2.2 svalAdd 2 (by decide) (by decide)
    (Or.inl (by decide))

/-- The dtypes for which the aggregation families are instantiated. -/
def numericDType : DType → Bool
  | .i32 | .i64 | .u32 | .f32 | .f64 => true
  | _ => false

theorem asRat_isSome_of_numeric {x : SVal} {d : DType} (hx : x.hasDType d = true)
    (hd : numericDType d = true) : ∃ q, x.asRat = some q := by
  cases x <;> cases d <;> simp_all [SVal.hasDType, numericDType, SVal.asRat]

/-- A two-element u32 series with non-integral mean. -/
def exU32 : PySeries := ⟨⟨"u", .u32, [some (.vu 1), some (.vu 2)]⟩⟩

theorem exU32_meanVal : exU32.series.meanVal = some (3 / 2 : Rat) := by
  have h : exU32.series.numericVals = [(1 : Rat), (2 : Rat)] := by
    simp [Series.numericVals, exU32, SVal.asRat]
  unfold Series.meanVal
  rw [h]
  norm_num

theorem ratToU_three_halves : ratToU (3 / 2 : Rat) = 1 := by
  have hf : ⌊(3 / 2 : ℚ)⌋ = 1 := by
    rw [Int.floor_eq_iff]
    norm_num
  have hf' : ((3 : Rat) / 2).floor = 1 := hf
  simp [ratToU, hf']

/-- C1 counterexample: on the u32 series `[1, 2]` the binding's `mean_u32`
(`impl_mean!(mean_u32, u32)`, return type `PyResult<Option<u32>>`) returns the
optional integer `Some 1`, an optional value of the integer source type, while
the floating-point mean of the series is `3/2 ≠ 1`: the per-type mean
operation does not return an optional floating-point value. -/
theorem c1_counterexample :
    exU32.mean_u32 = .ok (some 1) ∧
    exU32.series.meanVal = some (3 / 2 : Rat) ∧
    (1 : Rat) ≠ 3 / 2 := by
  refine ⟨?_, exU32_meanVal, by norm_num⟩
  show Except.ok (exU32.series.meanVal.map ratToU) = Except.ok (some 1)
  rw [exU32_meanVal]
  simp [ratToU_three_halves]

/-- C1 amended: for a well-formed numeric Series, `mean_f32`/`mean_f64`
return the optional floating-point mean, while `mean_u32`/`mean_i32`/
`mean_i64` return that mean numerically cast (truncated toward zero) to the
integer source type — an optional value of the source type, not an optional
float; each is absent exactly when the series is empty or contains only
nulls. -/
theorem c1_mean_amended (s : PySeries) (hwf : s.series.WF)
    (hnum : numericDType s.series.dtype = true) :
    s.mean_u32 = .ok (s.series.meanVal.map ratToU) ∧
    s.mean_i32 = .ok (s.series.meanVal.map ratToI) ∧
    s.mean_i64 = .ok (s.series.meanVal.map ratToI) ∧
    s.mean_f32 = .ok s.series.meanVal ∧
    s.mean_f64 = .ok s.series.meanVal ∧
    (s.series.meanVal = none ↔ ∀ v ∈ s.series.data, v = none) := by
  refine ⟨rfl, rfl, rfl, rfl, rfl, ?_⟩
  have hnil : (s.series.meanVal = none) ↔ s.series.numericVals = [] := by
    unfold Series.meanVal
    split
    · next h => simp [List.length_eq_zero.mp h]
    · next h =>
        simp only [reduceCtorEq, false_iff]
        intro hc
        exact h (by rw [hc]; rfl)
  rw [hnil, Series.numericVals, List.filterMap_eq_nil_iff]
  constructor
  · intro h v hv
    cases v with
    | none => rfl
    | some x =>
        obtain ⟨q, hq⟩ := asRat_isSome_of_numeric (hwf _ hv _ rfl) hnum
        have hbind := h _ hv
        simp [hq] at hbind
  · intro h v hv
    rw [h v hv]
    rfl

/-- Witness for the amended C1 at a concrete input: on the u32 series `[1,2]`
the truncated-mean equations hold, giving `Some 1` for the integer form and
`Some (3/2)` for the float form. -/
theorem c1_mean_amended_witness :
    exU32.mean_u32 = .ok (some 1) ∧ exU32.mean_f64 = .ok (some (3 / 2 : Rat)) := by
  obtain ⟨h1, -, -, -, h5, -⟩ := c1_mean_amended exU32 (by decide) (by decide)
  constructor
  · rw [h1, exU32_meanVal]
    simp [ratToU_three_halves]
  · rw [h5, exU32_meanVal]

end PolarsSpec
